import Mathlib

/-!
Verification of the watcher monitoring engine core: the retry loop of
`PingerTask.ping`, the status state machine of `PingerTask.updateStatus`,
the alert-suppression decision of `Dispatcher.shouldPublish`, engine
construction in `NewEngine`, and the result invariants of the HTTP and SSH
pingers. Durations and timestamps are modelled as integers (nanoseconds);
Go `nil` pointers and `nil` errors are modelled as `Option.none`.
-/

namespace Watcher

/-- The `ping.Status` enumeration: `StatusUnknown`, `StatusOK`, `StatusNOK`. -/
inductive Status where
  | unknown
  | ok
  | nok
deriving DecidableEq, Repr

/-- The `ping.Result` struct: a status together with an optional error
(Go `error` is `nil` exactly when the `Option` is `none`). -/
structure Result where
  status : Status
  error : Option String
deriving DecidableEq, Repr

/-- The zero value of `ping.Result`: `Status` is the zero `ping.Status`
(`StatusUnknown = 0`) and `Error` is `nil`. This is what the named return
values of `PingerTask.ping` hold if the loop body never executes. -/
def zeroResult : Result := { status := Status.unknown, error := none }

/-- The `config.Retries` struct. `Attempts` is a Go `int`, so it may be
negative; delays are durations in nanoseconds. -/
structure Retries where
  attempts : Int
  delay : Nat
  exponentialBackoff : Bool
deriving DecidableEq, Repr

/-- The `config.Schedule` struct (interval plus retries). -/
structure Schedule where
  interval : Nat
  retries : Retries
deriving DecidableEq, Repr

/-- `Retries.Validate` from the configuration layer: rejects only a strictly
negative `Attempts` value, returning an error message (`some`) or `nil`. -/
def retriesValidate (retries : Retries) : Option String :=
  if retries.attempts < 0 then some "retries: attempts must be a positive number"
  else none

/-- Observable outcome of one execution of `PingerTask.ping`: the returned
result and output, the number of `Pinger.Ping` invocations made, and the
sequence of `time.Sleep` durations performed between attempts. -/
structure PingOutcome where
  result : Result
  output : Option String
  invocations : Nat
  waits : List Nat
deriving DecidableEq, Repr

/-- The loop body of `PingerTask.ping`, by recursion on the number of
remaining iterations. `pingFn a` gives what `task.Pinger.Ping()` returns on
attempt number `a` (1-based). Mirrors the Go loop exactly: on a non-OK
result the delay is doubled first (when `backoff`), and the sleep happens
only when `attempt < maxAttempts`, i.e. when more than one iteration
remains. -/
def pingAux (pingFn : Nat → Result × Option String) (backoff : Bool) :
    Nat → Nat → Nat → PingOutcome
  | 0, _, _ => { result := zeroResult, output := none, invocations := 0, waits := [] }
  | remaining + 1, attempt, attemptDelay =>
    let r := (pingFn attempt).1
    let out := (pingFn attempt).2
    if r.status = Status.ok then
      { result := r, output := out, invocations := 1, waits := [] }
    else
      let newDelay := if backoff then attemptDelay * 2 else attemptDelay
      if remaining = 0 then
        { result := r, output := out, invocations := 1, waits := [] }
      else
        let rest := pingAux pingFn backoff remaining (attempt + 1) newDelay
        { result := rest.result, output := rest.output,
          invocations := rest.invocations + 1, waits := newDelay :: rest.waits }

/-- `PingerTask.ping`: runs the attempt loop
`for attempt := 1; attempt <= maxAttempts; attempt++`, which executes
`max 0 maxAttempts` iterations, starting from the configured retry delay. -/
def ping (pingFn : Nat → Result × Option String) (retries : Retries) : PingOutcome :=
  pingAux pingFn retries.exponentialBackoff retries.attempts.toNat 1 retries.delay

/-- The `engine.PingerTaskStatus` struct. Timestamps are `*time.Time`
pointers, modelled as `Option Int`. -/
structure PingerTaskStatus where
  latestResult : Result
  consecutive : Int
  latestOK : Option Int
  latestNOK : Option Int
deriving DecidableEq, Repr

/-- The `engine.StatusUpdate` struct sent on the status channel. -/
structure StatusUpdate where
  name : String
  status : PingerTaskStatus
deriving DecidableEq, Repr

/-- `PingerTask.updateStatus`: compares the new result status against the
previous latest result before overwriting it, bumps or resets the
consecutive counter, and stamps `LatestOK`/`LatestNOK` according to the
`switch` on the result status (the `StatusUnknown` case falls through the
switch untouched). -/
def updateStatus (st : PingerTaskStatus) (r : Result) (now : Int) : PingerTaskStatus :=
  let consec := if r.status = st.latestResult.status then st.consecutive + 1 else 1
  let lok := if r.status = Status.ok then some now else st.latestOK
  let lnok := if r.status = Status.nok then some now else st.latestNOK
  { latestResult := r, consecutive := consec, latestOK := lok, latestNOK := lnok }

/-- The status installed at the top of `PingerTask.Start`, before the loop
runs: latest result `StatusUnknown` with the sentinel error, consecutive 1,
and both timestamp pointers `nil` (the struct literal leaves them at their
zero value). -/
def initialStatus : PingerTaskStatus :=
  { latestResult := { status := Status.unknown, error := some "no ping performed yet" },
    consecutive := 1,
    latestOK := none,
    latestNOK := none }

/-- The task status after `n` completed check cycles of the `Start` loop:
cycle `k` applies `updateStatus` with that cycle result `results k` at time
`times k`. -/
def statusAfterCycles (results : Nat → Result) (times : Nat → Int) :
    Nat → PingerTaskStatus
  | 0 => initialStatus
  | n + 1 => updateStatus (statusAfterCycles results times n) (results n) (times n)

/-- `engine.statusChanged`: a state transition is a status with
`Consecutive == 1` whose latest result status is not `StatusUnknown`. -/
def statusChanged (status : PingerTaskStatus) : Bool :=
  decide (status.consecutive = 1) && decide (status.latestResult.status ≠ Status.unknown)

/-- `Dispatcher.shouldPublish`: always publish on a state transition;
otherwise publish a `StatusNOK` update only when an alert-history entry
exists for the pinger and `reminderDelay - time.Since(lastAlert) <= 0`;
in every other case (including a NOK update with no history entry) fall
through to `return false`. -/
def shouldPublish (reminderDelay : Int) (alertHistory : String → Option Int)
    (update : StatusUpdate) (now : Int) : Bool :=
  if statusChanged update.status then
    true
  else if update.status.latestResult.status = Status.nok then
    match alertHistory update.name with
    | some lastAlert => decide (reminderDelay - (now - lastAlert) ≤ 0)
    | none => false
  else
    false

/-- A pinger configuration entry (`config.Pinger`): name, type, and an
optional per-pinger schedule override. The protocol-specific `Check`
payload is consumed by the external checker constructors, which this model
abstracts as functions. -/
structure PingerConf where
  name : String
  type : String
  schedule : Option Schedule
deriving DecidableEq, Repr

/-- One entry of `engine.Pingers`: a `PingerTask` as assembled by
`NewEngine`, holding the constructed pinger (abstract type `P`) and the
resolved schedule. -/
structure PingerTaskModel (P : Type) where
  name : String
  type : String
  pinger : P
  schedule : Schedule
deriving DecidableEq, Repr

/-- The `engine.Engine` struct: the pinger-task map (modelled as an
association list with Go-map insert semantics) and the default schedule. -/
structure EngineModel (P : Type) where
  pingers : List (String × PingerTaskModel P)
  defaultSchedule : Schedule
deriving DecidableEq, Repr

/-- Go map assignment `m[k] = v`: replace the binding when the key is
present, otherwise add it. -/
def mapInsert {α : Type} : List (String × α) → String → α → List (String × α)
  | [], k, v => [(k, v)]
  | (k0, v0) :: rest, k, v =>
    if k0 = k then (k, v) :: rest else (k0, v0) :: mapInsert rest k v

/-- Go map read `m[k]`. -/
def mapLookup {α : Type} : List (String × α) → String → Option α
  | [], _ => none
  | (k0, v0) :: rest, k => if k0 = k then some v0 else mapLookup rest k

/-- The `standardDefaultSchedule` used when the configuration gives no
default schedule: interval 10 minutes, 3 attempts, 3 second delay, no
exponential backoff (durations in nanoseconds). -/
def standardDefaultSchedule : Schedule :=
  { interval := 600000000000,
    retries := { attempts := 3, delay := 3000000000, exponentialBackoff := false } }

/-- The `switch pingerConf.Type` of `NewEngine`: dispatch to
`ping.NewSSHPinger` or `ping.NewHTTPPinger` (abstracted as the
environment functions `sshNew` and `httpNew`, which fail exactly when the
corresponding Go constructor returns an error), or fail on an unknown
type. -/
def instantiatePinger {P : Type} (sshNew httpNew : PingerConf → Except String P)
    (conf : PingerConf) : Except String P :=
  match conf.type with
  | "ssh" => sshNew conf
  | "http" => httpNew conf
  | t => Except.error ("unknown pinger type: " ++ t)

/-- The pinger-construction loop of `NewEngine`: for each configuration
entry, instantiate its pinger (returning an error for the whole build on
the first failure), resolve its schedule (per-pinger override else the
engine default), and insert the assembled task into the map. -/
def buildTasks {P : Type} (sshNew httpNew : PingerConf → Except String P)
    (defaultSchedule : Schedule) :
    List PingerConf → List (String × PingerTaskModel P) →
    Except String (List (String × PingerTaskModel P))
  | [], acc => Except.ok acc
  | conf :: rest, acc =>
    match instantiatePinger sshNew httpNew conf with
    | Except.error e => Except.error ("failed to instantiate pinger: " ++ e)
    | Except.ok p =>
      let sched := match conf.schedule with
        | some s => s
        | none => defaultSchedule
      buildTasks sshNew httpNew defaultSchedule rest
        (mapInsert acc conf.name
          { name := conf.name, type := conf.type, pinger := p, schedule := sched })

/-- `engine.NewEngine`: resolve the default schedule, build every pinger
task (failing the whole construction on the first pinger error), then
construct the dispatcher (abstracted by `dispatcherResult`, an error
exactly when `NewDispatcher` fails); on any failure return an error and no
engine. -/
def newEngine {P : Type} (sshNew httpNew : PingerConf → Except String P)
    (dispatcherResult : Except String Unit) (defaultSchedule : Option Schedule)
    (confs : List PingerConf) : Except String (EngineModel P) :=
  let default := match defaultSchedule with
    | some s => s
    | none => standardDefaultSchedule
  match buildTasks sshNew httpNew default confs [] with
  | Except.error e => Except.error e
  | Except.ok tasks =>
    match dispatcherResult with
    | Except.error e => Except.error ("failed to instantiate alert dispatcher: " ++ e)
    | Except.ok _ => Except.ok { pingers := tasks, defaultSchedule := default }

/-- Environment of one `HTTPPinger.Ping` call: whether `http.NewRequest`
fails, and the outcome of `client.Do` (error, or a response with a status
code and a body). -/
structure HTTPResponseModel where
  statusCode : Int
  body : String
deriving DecidableEq, Repr

structure HTTPEnv where
  newRequestError : Option String
  doResult : Except String HTTPResponseModel
deriving Repr

/-- `HTTPPinger.Ping`: NOK with an error when building the request fails,
NOK when the round trip fails, NOK when the response code differs from the
expected one, else OK with a `nil` error and the body as output. -/
def httpPing (expectedCode : Int) (env : HTTPEnv) : Result × Option String :=
  match env.newRequestError with
  | some e => ({ status := Status.nok, error := some ("ping failed: " ++ e) }, none)
  | none =>
    match env.doResult with
    | Except.error e =>
      ({ status := Status.nok, error := some ("ping failed: " ++ e) }, none)
    | Except.ok response =>
      if expectedCode ≠ response.statusCode then
        ({ status := Status.nok,
           error := some ("expected status code (" ++ toString expectedCode ++
             ") differs from actual (" ++ toString response.statusCode ++ ")") }, none)
      else
        ({ status := Status.ok, error := none }, some response.body)

/-- Result of `SSHClient.Run`: an exit status and the command output. -/
structure CommandResult where
  exitStatus : Int
  output : Option String
deriving DecidableEq, Repr

/-- `SSHPinger.Ping`: NOK with an error when `Client.Run` fails (connection
problems), NOK when the exit status differs from the expected one, else OK
with a `nil` error; in the latter two cases the command output is passed
through. -/
def sshPing (expectedExitCode : Int) (runResult : Except String CommandResult) :
    Result × Option String :=
  match runResult with
  | Except.error e =>
    ({ status := Status.nok, error := some ("ping failed: " ++ e) }, none)
  | Except.ok response =>
    if expectedExitCode ≠ response.exitStatus then
      ({ status := Status.nok,
         error := some ("expected exit code (" ++ toString expectedExitCode ++
           ") differs from actual (" ++ toString response.exitStatus ++ ")") },
       response.output)
    else
      ({ status := Status.ok, error := none }, response.output)

/-- The transition rule as the spec words it: `consecutive == 1` and the
latest outcome status is not `Unknown`. Stated from the spec for
comparison against `shouldPublish`. -/
def transitionRuleSpec (update : StatusUpdate) : Prop :=
  update.status.consecutive = 1 ∧ update.status.latestResult.status ≠ Status.unknown

/-- The NOK reminder rule as the spec words it: the latest outcome is NOK,
and either no prior dispatch is recorded for the endpoint or at least
`reminderDelay` has elapsed since the recorded one. Stated from the spec
for comparison against `shouldPublish`. -/
def reminderRuleSpec (reminderDelay : Int) (alertHistory : String → Option Int)
    (update : StatusUpdate) (now : Int) : Prop :=
  update.status.latestResult.status = Status.nok ∧
    (alertHistory update.name = none ∨
      ∃ t, alertHistory update.name = some t ∧ reminderDelay ≤ now - t)

/-- Whether an `Except` value is a success. -/
def exceptOk {ε α : Type} : Except ε α → Bool
  | Except.ok _ => true
  | Except.error _ => false

/-- Number of pinger tasks held by the engine produced by a construction
result (0 for a failed construction). -/
def enginePingerCount {P : Type} : Except String (EngineModel P) → Nat
  | Except.ok engine => engine.pingers.length
  | Except.error _ => 0

/-- Whether the engine produced by a construction result holds a task
registered under a given pinger name (false for a failed construction). -/
def engineHasTask {P : Type} : Except String (EngineModel P) → String → Bool
  | Except.ok engine, name => (mapLookup engine.pingers name).isSome
  | Except.error _, _ => false

/-- Claim C5: after a status update, the consecutive count is the previous
count plus one when the result status equals the previous latest result
status, and resets to 1 when it differs. -/
theorem consecutive_reset_or_increment (st : PingerTaskStatus) (r : Result) (now : Int) :
    (r.status = st.latestResult.status →
      (updateStatus st r now).consecutive = st.consecutive + 1) ∧
    (r.status ≠ st.latestResult.status →
      (updateStatus st r now).consecutive = 1) := by
  constructor <;> intro h <;> simp [updateStatus, h]

/-- Witness for `consecutive_reset_or_increment` at concrete inputs. -/
theorem consecutive_reset_or_increment_witness :
    (updateStatus initialStatus { status := Status.unknown, error := none } 5).consecutive =
      initialStatus.consecutive + 1 ∧
    (updateStatus initialStatus { status := Status.ok, error := none } 5).consecutive = 1 :=
  ⟨(consecutive_reset_or_increment initialStatus
      { status := Status.unknown, error := none } 5).1 rfl,
   (consecutive_reset_or_increment initialStatus
      { status := Status.ok, error := none } 5).2 (by decide)⟩

/-- Claim C6: a status update sets `LatestOK` to the update time exactly
when the result is OK and leaves it unchanged otherwise; symmetrically for
`LatestNOK` and NOK; an Unknown result leaves both unchanged. -/
theorem timestamps_frame (st : PingerTaskStatus) (r : Result) (now : Int) :
    ((r.status = Status.ok → (updateStatus st r now).latestOK = some now) ∧
     (r.status ≠ Status.ok → (updateStatus st r now).latestOK = st.latestOK)) ∧
    ((r.status = Status.nok → (updateStatus st r now).latestNOK = some now) ∧
     (r.status ≠ Status.nok → (updateStatus st r now).latestNOK = st.latestNOK)) ∧
    (r.status = Status.unknown →
      (updateStatus st r now).latestOK = st.latestOK ∧
      (updateStatus st r now).latestNOK = st.latestNOK) := by
  refine ⟨⟨?_, ?_⟩, ⟨?_, ?_⟩, ?_⟩ <;> intro h <;> simp [updateStatus, h]

/-- Witness for `timestamps_frame` at a concrete input. -/
theorem timestamps_frame_witness :
    (updateStatus initialStatus { status := Status.ok, error := none } 7).latestOK = some 7 ∧
    (updateStatus initialStatus { status := Status.ok, error := none } 7).latestNOK =
      initialStatus.latestNOK :=
  ⟨(timestamps_frame initialStatus { status := Status.ok, error := none } 7).1.1 rfl,
   (timestamps_frame initialStatus { status := Status.ok, error := none } 7).2.1.2 (by decide)⟩

/-- Claim C8: before the first completed check cycle, the task status is
latest outcome Unknown, consecutive 1, and no OK or NOK timestamp. -/
theorem fresh_task_status (results : Nat → Result) (times : Nat → Int) :
    (statusAfterCycles results times 0).latestResult.status = Status.unknown ∧
    (statusAfterCycles results times 0).consecutive = 1 ∧
    (statusAfterCycles results times 0).latestOK = none ∧
    (statusAfterCycles results times 0).latestNOK = none :=
  ⟨rfl, rfl, rfl, rfl⟩

/-- Claim C2: with `Attempts = 0` the attempt loop of `PingerTask.ping`
never runs: zero checker invocations, and the cycle result is the Go zero
value of `ping.Result` (status Unknown, nil error) rather than the outcome
of a single attempt; yet `Retries.Validate` accepts `Attempts = 0`. -/
theorem ping_zero_attempts (pingFn : Nat → Result × Option String) (d : Nat) (b : Bool) :
    ping pingFn { attempts := 0, delay := d, exponentialBackoff := b } =
      { result := zeroResult, output := none, invocations := 0, waits := [] } ∧
    retriesValidate { attempts := 0, delay := d, exponentialBackoff := b } = none :=
  ⟨rfl, rfl⟩

/-- Claim C10: every result of `HTTPPinger.Ping` and of `SSHPinger.Ping`
has status OK or NOK (never Unknown), and its error is nil exactly when
the status is OK. -/
theorem pinger_result_invariant (expectedCode : Int) (env : HTTPEnv)
    (expectedExit : Int) (runResult : Except String CommandResult) :
    (((httpPing expectedCode env).1.status = Status.ok ∨
        (httpPing expectedCode env).1.status = Status.nok) ∧
      ((httpPing expectedCode env).1.error = none ↔
        (httpPing expectedCode env).1.status = Status.ok)) ∧
    (((sshPing expectedExit runResult).1.status = Status.ok ∨
        (sshPing expectedExit runResult).1.status = Status.nok) ∧
      ((sshPing expectedExit runResult).1.error = none ↔
        (sshPing expectedExit runResult).1.status = Status.ok)) := by
  constructor
  · obtain ⟨nre, dr⟩ := env
    cases nre with
    | some e => simp [httpPing]
    | none =>
      cases dr with
      | error e => simp [httpPing]
      | ok resp =>
        by_cases h : expectedCode ≠ resp.statusCode
        · simp [httpPing, h]
        · simp [httpPing, h]
  · cases runResult with
    | error e => simp [sshPing]
    | ok resp =>
      by_cases h : expectedExit ≠ resp.exitStatus
      · simp [sshPing, h]
      · simp [sshPing, h]

/-- Counterexample to claim C3 as stated: a NOK update with consecutive 2
and no alert-history entry for the endpoint is suppressed by
`shouldPublish`, while the claim says it should be alerted. -/
theorem no_history_reminder_counterexample :
    shouldPublish 10 (fun _ => none)
      { name := "a",
        status := { latestResult := { status := Status.nok, error := some "e" },
                    consecutive := 2, latestOK := none, latestNOK := some 0 } }
      100 = false := by
  decide

/-- Claim C3 (amended): for a NOK update that is not a state transition,
the dispatcher alerts exactly when a prior dispatch is recorded for the
endpoint and at least `reminderDelay` has elapsed since it; with no
recorded prior dispatch the update is suppressed. -/
theorem reminder_requires_history (reminderDelay : Int)
    (alertHistory : String → Option Int) (update : StatusUpdate) (now : Int)
    (hnok : update.status.latestResult.status = Status.nok)
    (hc : update.status.consecutive ≠ 1) :
    shouldPublish reminderDelay alertHistory update now = true ↔
      ∃ t, alertHistory update.name = some t ∧ reminderDelay ≤ now - t := by
  have hsc : statusChanged update.status = false := by
    simp [statusChanged, hc]
  rw [shouldPublish]
  simp only [hsc, Bool.false_eq_true, if_false, hnok, if_pos]
  cases h : alertHistory update.name with
  | none => simp [h]
  | some t0 =>
    simp only [h, decide_eq_true_eq, Option.some.injEq]
    constructor
    · intro hle
      exact ⟨t0, rfl, by omega⟩
    · rintro ⟨t, ht, hle⟩
      subst ht
      omega

/-- Witness for `reminder_requires_history` at a concrete input. -/
theorem reminder_requires_history_witness :
    shouldPublish 10 (fun _ => some 0)
      { name := "a",
        status := { latestResult := { status := Status.nok, error := some "e" },
                    consecutive := 2, latestOK := none, latestNOK := some 0 } }
      100 = true :=
  (reminder_requires_history 10 (fun _ => some 0)
      { name := "a",
        status := { latestResult := { status := Status.nok, error := some "e" },
                    consecutive := 2, latestOK := none, latestNOK := some 0 } }
      100 rfl (by decide)).mpr ⟨0, rfl, by decide⟩

/-- Claim C4: an update matching the transition rule (consecutive 1 and a
non-Unknown status) is always alerted, whatever the history; an update
matching neither the transition rule nor the spec's NOK reminder rule is
suppressed. -/
theorem transition_alert_and_default_suppress (reminderDelay : Int)
    (alertHistory : String → Option Int) (update : StatusUpdate) (now : Int) :
    (transitionRuleSpec update →
      shouldPublish reminderDelay alertHistory update now = true) ∧
    (¬ transitionRuleSpec update →
      ¬ reminderRuleSpec reminderDelay alertHistory update now →
      shouldPublish reminderDelay alertHistory update now = false) := by
  constructor
  · intro h
    have hsc : statusChanged update.status = true := by
      simp [statusChanged, h.1, h.2]
    simp [shouldPublish, hsc]
  · intro hnt hnr
    rw [transitionRuleSpec, not_and_or, not_not] at hnt
    have hsc : statusChanged update.status = false := by
      rcases hnt with h1 | h2
      · simp [statusChanged, h1]
      · simp [statusChanged, h2]
    by_cases hnok : update.status.latestResult.status = Status.nok
    · rw [shouldPublish]
      simp only [hsc, Bool.false_eq_true, if_false, hnok, if_pos]
      cases h : alertHistory update.name with
      | none => exact absurd ⟨hnok, Or.inl h⟩ hnr
      | some t0 =>
        have hlt : ¬ reminderDelay ≤ now - t0 := by
          intro hle
          exact hnr ⟨hnok, Or.inr ⟨t0, h, hle⟩⟩
        simp only [decide_eq_false_iff_not]
        omega
    · simp [shouldPublish, hsc, hnok]

/-- Witness for `transition_alert_and_default_suppress`: a NOK transition is
alerted and a repeated-OK update is suppressed. -/
theorem transition_alert_and_default_suppress_witness :
    shouldPublish 10 (fun _ => some 0)
      { name := "a",
        status := { latestResult := { status := Status.nok, error := some "e" },
                    consecutive := 1, latestOK := none, latestNOK := some 0 } }
      100 = true ∧
    shouldPublish 10 (fun _ => some 0)
      { name := "a",
        status := { latestResult := { status := Status.ok, error := none },
                    consecutive := 2, latestOK := some 0, latestNOK := none } }
      100 = false :=
  ⟨(transition_alert_and_default_suppress 10 (fun _ => some 0)
      { name := "a",
        status := { latestResult := { status := Status.nok, error := some "e" },
                    consecutive := 1, latestOK := none, latestNOK := some 0 } }
      100).1 ⟨by decide, by decide⟩,
   (transition_alert_and_default_suppress 10 (fun _ => some 0)
      { name := "a",
        status := { latestResult := { status := Status.ok, error := none },
                    consecutive := 2, latestOK := some 0, latestNOK := none } }
      100).2 (fun h => absurd h.1 (by decide)) (fun h => Status.noConfusion h.1)⟩

/-- Helper: with exponential backoff and a checker that always returns NOK,
the loop performs every attempt, and sleeps `attemptDelay * 2 ^ (i + 1)`
before the `i`-th retry (0-based), because the delay is doubled before the
sleep. -/
theorem pingAux_allNok (pingFn : Nat → Result × Option String)
    (h : ∀ a, (pingFn a).1.status = Status.nok) :
    ∀ (remaining attempt attemptDelay : Nat),
      pingAux pingFn true (remaining + 1) attempt attemptDelay =
        { result := (pingFn (attempt + remaining)).1,
          output := (pingFn (attempt + remaining)).2,
          invocations := remaining + 1,
          waits := (List.range remaining).map (fun i => attemptDelay * 2 ^ (i + 1)) } := by
  intro remaining
  induction remaining with
  | zero =>
    intro attempt attemptDelay
    simp [pingAux, h attempt]
  | succ m ih =>
    intro attempt attemptDelay
    rw [pingAux]
    rw [if_neg (by simp [h attempt]), if_neg (Nat.succ_ne_zero m)]
    rw [if_pos rfl]
    rw [ih (attempt + 1) (attemptDelay * 2)]
    rw [(by omega : attempt + 1 + m = attempt + (m + 1))]
    dsimp only
    congr 1
    rw [List.range_succ_eq_map, List.map_cons, List.map_map]
    congr 1
    apply List.map_congr_left
    intro a ha
    simp only [Function.comp_apply, Nat.succ_eq_add_one, pow_succ]
    ring

/-- Claim C1 (amended): with exponential backoff and a checker returning NOK
on every attempt, the waits between attempts are
`retryDelay * 2 ^ (k - 1)` before attempt `k` (the code doubles the delay
before using it), every configured attempt runs, the cycle result is NOK,
and no wait follows the final attempt (`attempts - 1` waits in total). -/
theorem backoff_doubles_before_use (pingFn : Nat → Result × Option String)
    (n d : Nat) (hn : 1 ≤ n)
    (h : ∀ a, (pingFn a).1.status = Status.nok) :
    (ping pingFn { attempts := (n : Int), delay := d, exponentialBackoff := true }).result.status = Status.nok ∧
    (ping pingFn { attempts := (n : Int), delay := d, exponentialBackoff := true }).invocations = n ∧
    (ping pingFn { attempts := (n : Int), delay := d, exponentialBackoff := true }).waits =
      (List.range (n - 1)).map (fun i => d * 2 ^ (i + 1)) ∧
    (ping pingFn { attempts := (n : Int), delay := d, exponentialBackoff := true }).waits.length = n - 1 := by
  obtain ⟨m, rfl⟩ : ∃ m, n = m + 1 := ⟨n - 1, by omega⟩
  have hping : ping pingFn { attempts := ((m + 1 : Nat) : Int), delay := d, exponentialBackoff := true } = pingAux pingFn true (m + 1) 1 d := by
    rw [ping]
    norm_num
  rw [hping, pingAux_allNok pingFn h m 1 d]
  refine ⟨h (1 + m), rfl, ?_, ?_⟩
  · simp
  · simp

/-- Counterexample to claim C1 as stated: for `attempts = 3`, delay 1 and
exponential backoff against an always-NOK checker, the waits are 2 then 4,
not the claimed 1 then 2 (`retryDelay * 2 ^ (k - 2)`). -/
theorem backoff_counterexample :
    (ping (fun _ => ({ status := Status.nok, error := some "e" }, none))
      { attempts := 3, delay := 1, exponentialBackoff := true }).waits = [2, 4] ∧
    (ping (fun _ => ({ status := Status.nok, error := some "e" }, none))
      { attempts := 3, delay := 1, exponentialBackoff := true }).waits ≠ [1, 2] :=
  ⟨rfl, by decide⟩

/-- Witness for `backoff_doubles_before_use` at a concrete input. -/
theorem backoff_doubles_before_use_witness :
    (ping (fun _ => ({ status := Status.nok, error := none }, none))
      { attempts := ((3 : Nat) : Int), delay := 1, exponentialBackoff := true }).waits = [2, 4] := by
  have h := (backoff_doubles_before_use
      (fun _ => ({ status := Status.nok, error := none }, none))
      3 1 (by decide) (fun _ => rfl)).2.2.1
  rw [h]
  decide

/-- Helper: if the first OK attempt is attempt `j` (within range), the loop
returns that attempt's result after exactly `j` invocations and `j - attempt`
sleeps, counting from loop position `attempt`. -/
theorem pingAux_firstOk (pingFn : Nat → Result × Option String) (b : Bool) :
    ∀ (remaining attempt attemptDelay j : Nat),
      attempt ≤ j → j < attempt + remaining →
      (pingFn j).1.status = Status.ok →
      (∀ i, attempt ≤ i → i < j → (pingFn i).1.status ≠ Status.ok) →
      ∃ ws : List Nat,
        pingAux pingFn b remaining attempt attemptDelay =
          { result := (pingFn j).1, output := (pingFn j).2,
            invocations := j + 1 - attempt, waits := ws } ∧
        ws.length = j - attempt := by
  intro remaining
  induction remaining with
  | zero =>
    intro attempt attemptDelay j h1 h2 hok hprev
    exact absurd h2 (by omega)
  | succ m ih =>
    intro attempt attemptDelay j h1 h2 hok hprev
    by_cases hj : attempt = j
    · subst hj
      refine ⟨[], ?_, by simp⟩
      rw [pingAux, if_pos hok]
      rw [(by omega : attempt + 1 - attempt = 1)]
    · have hlt : attempt < j := by omega
      have hne := hprev attempt (le_refl _) hlt
      have hm : m ≠ 0 := by omega
      obtain ⟨ws, heq, hlen⟩ :=
        ih (attempt + 1) (if b then attemptDelay * 2 else attemptDelay) j
          (by omega) (by omega) hok (fun i hi1 hi2 => hprev i (by omega) hi2)
      refine ⟨(if b then attemptDelay * 2 else attemptDelay) :: ws, ?_, ?_⟩
      · rw [pingAux, if_neg hne, if_neg hm, heq]
        simp only [PingOutcome.mk.injEq, true_and, and_true, eq_self_iff_true]
        omega
      · simp only [List.length_cons, hlen]
        omega

/-- Claim C7: the retry loop stops at the first attempt whose status is OK,
returns that attempt's result, makes exactly that many invocations, and
performs no further delay (all waits precede the successful attempt). -/
theorem first_ok_stops (pingFn : Nat → Result × Option String) (n j d : Nat) (b : Bool)
    (h1 : 1 ≤ j) (h2 : j ≤ n)
    (hok : (pingFn j).1.status = Status.ok)
    (hprev : ∀ i, 1 ≤ i → i < j → (pingFn i).1.status ≠ Status.ok) :
    (ping pingFn { attempts := (n : Int), delay := d, exponentialBackoff := b }).result = (pingFn j).1 ∧
    (ping pingFn { attempts := (n : Int), delay := d, exponentialBackoff := b }).invocations = j ∧
    (ping pingFn { attempts := (n : Int), delay := d, exponentialBackoff := b }).waits.length = j - 1 := by
  obtain ⟨ws, heq, hlen⟩ := pingAux_firstOk pingFn b n 1 d j h1 (by omega) hok hprev
  have hping : ping pingFn { attempts := (n : Int), delay := d, exponentialBackoff := b } = pingAux pingFn b n 1 d := by
    rw [ping]
    norm_num
  rw [hping, heq]
  refine ⟨rfl, ?_, ?_⟩
  · show j + 1 - 1 = j
    omega
  · show ws.length = j - 1
    omega

/-- Witness for `first_ok_stops`: a checker that fails once then succeeds,
with three configured attempts, is invoked exactly twice and yields OK. -/
theorem first_ok_stops_witness :
    (ping (fun a => if a = 1 then ({ status := Status.nok, error := some "e" }, none)
        else ({ status := Status.ok, error := none }, some "out"))
      { attempts := ((3 : Nat) : Int), delay := 1, exponentialBackoff := false }).invocations = 2 ∧
    (ping (fun a => if a = 1 then ({ status := Status.nok, error := some "e" }, none)
        else ({ status := Status.ok, error := none }, some "out"))
      { attempts := ((3 : Nat) : Int), delay := 1, exponentialBackoff := false }).result.status = Status.ok := by
  have h := first_ok_stops
    (fun a => if a = 1 then ({ status := Status.nok, error := some "e" }, none)
      else ({ status := Status.ok, error := none }, some "out"))
    3 2 1 false (by decide) (by decide) (by decide)
    (fun i hi1 hi2 => by
      have hi : i = 1 := by omega
      rw [hi]
      decide)
  refine ⟨h.2.1, ?_⟩
  rw [h.1]
  decide

/-- Helper: inserting a fresh key into the map appends the binding. -/
theorem mapInsert_not_mem_key {α : Type} (m : List (String × α)) (k : String) (v : α)
    (h : ¬ k ∈ m.map Prod.fst) : mapInsert m k v = m ++ [(k, v)] := by
  induction m with
  | nil => rfl
  | cons hd tl ih =>
    obtain ⟨k0, v0⟩ := hd
    simp only [List.map_cons, List.mem_cons, not_or] at h
    rw [mapInsert, if_neg (fun hh => h.1 hh.symm), ih h.2]
    rfl

/-- Helper: a key has a binding exactly when it occurs among the keys. -/
theorem mapLookup_isSome_iff {α : Type} (m : List (String × α)) (k : String) :
    (mapLookup m k).isSome = true ↔ k ∈ m.map Prod.fst := by
  induction m with
  | nil => simp [mapLookup]
  | cons hd tl ih =>
    obtain ⟨k0, v0⟩ := hd
    by_cases hk : k0 = k
    · simp [mapLookup, hk]
    · rw [mapLookup, if_neg hk]
      simp only [List.map_cons, List.mem_cons, ih]
      constructor
      · intro hmem
        exact Or.inr hmem
      · rintro (rfl | hmem)
        · exact absurd rfl hk
        · exact hmem

/-- Helper: the pinger-construction loop fails whenever some configuration
entry fails to instantiate. -/
theorem buildTasks_error {P : Type} (sshNew httpNew : PingerConf → Except String P)
    (defaultSchedule : Schedule) :
    ∀ (confs : List PingerConf) (acc : List (String × PingerTaskModel P)),
      (∃ c ∈ confs, exceptOk (instantiatePinger sshNew httpNew c) = false) →
      ∃ e, buildTasks sshNew httpNew defaultSchedule confs acc = Except.error e := by
  intro confs
  induction confs with
  | nil =>
    rintro acc ⟨c, hc, hbad⟩
    exact absurd hc (List.not_mem_nil c)
  | cons conf rest ih =>
    rintro acc ⟨c, hc, hbad⟩
    cases hinst : instantiatePinger sshNew httpNew conf with
    | error e =>
      refine ⟨"failed to instantiate pinger: " ++ e, ?_⟩
      rw [buildTasks, hinst]
    | ok p =>
      rcases List.mem_cons.mp hc with rfl | hcr
      · rw [hinst] at hbad
        simp [exceptOk] at hbad
      · obtain ⟨e, he⟩ := ih _ ⟨c, hcr, hbad⟩
        refine ⟨e, ?_⟩
        rw [buildTasks, hinst]
        exact he

/-- Helper: when every configuration entry instantiates, the loop succeeds
and the resulting map's keys are the accumulator's keys followed by the
configured names, in order. -/
theorem buildTasks_ok {P : Type} (sshNew httpNew : PingerConf → Except String P)
    (defaultSchedule : Schedule) :
    ∀ (confs : List PingerConf) (acc : List (String × PingerTaskModel P)),
      (∀ c ∈ confs, exceptOk (instantiatePinger sshNew httpNew c) = true) →
      (confs.map PingerConf.name).Nodup →
      (∀ c ∈ confs, ¬ c.name ∈ acc.map Prod.fst) →
      ∃ tasks, buildTasks sshNew httpNew defaultSchedule confs acc = Except.ok tasks ∧
        tasks.map Prod.fst = acc.map Prod.fst ++ confs.map PingerConf.name := by
  intro confs
  induction confs with
  | nil =>
    intro acc hok hnd hdisj
    exact ⟨acc, rfl, by simp⟩
  | cons conf rest ih =>
    intro acc hok hnd hdisj
    have hco := hok conf (List.mem_cons_self conf rest)
    cases hinst : instantiatePinger sshNew httpNew conf with
    | error e =>
      rw [hinst] at hco
      simp [exceptOk] at hco
    | ok p =>
      simp only [List.map_cons, List.nodup_cons] at hnd
      have hfresh : ¬ conf.name ∈ acc.map Prod.fst :=
        hdisj conf (List.mem_cons_self conf rest)
      obtain ⟨tasks, hbt, hkeys⟩ := ih
        (mapInsert acc conf.name
          { name := conf.name, type := conf.type, pinger := p,
            schedule := match conf.schedule with
              | some s => s
              | none => defaultSchedule })
        (fun c hc => hok c (List.mem_cons_of_mem conf hc))
        hnd.2
        (fun c hc => by
          rw [mapInsert_not_mem_key acc conf.name _ hfresh]
          simp only [List.map_append, List.mem_append, List.map_cons, List.map_nil,
            List.mem_singleton, not_or]
          refine ⟨hdisj c (List.mem_cons_of_mem conf hc), ?_⟩
          intro hne
          exact hnd.1 (hne ▸ List.mem_map_of_mem PingerConf.name hc))
      refine ⟨tasks, ?_, ?_⟩
      · rw [buildTasks, hinst]
        exact hbt
      · rw [hkeys, mapInsert_not_mem_key acc conf.name _ hfresh]
        simp

/-- Claim C9: if any configured pinger fails to instantiate, `NewEngine`
returns an error and no engine; if every pinger instantiates, the
dispatcher constructs, and the configured names are unique, the returned
engine holds exactly one task per configured endpoint, registered under
its name. -/
theorem engine_build_atomic {P : Type} (sshNew httpNew : PingerConf → Except String P)
    (dispatcherResult : Except String Unit) (defaultSchedule : Option Schedule)
    (confs : List PingerConf) :
    ((∃ c ∈ confs, exceptOk (instantiatePinger sshNew httpNew c) = false) →
      exceptOk (newEngine sshNew httpNew dispatcherResult defaultSchedule confs) = false) ∧
    ((∀ c ∈ confs, exceptOk (instantiatePinger sshNew httpNew c) = true) →
      dispatcherResult = Except.ok () →
      (confs.map PingerConf.name).Nodup →
      exceptOk (newEngine sshNew httpNew dispatcherResult defaultSchedule confs) = true ∧
      enginePingerCount (newEngine sshNew httpNew dispatcherResult defaultSchedule confs) =
        confs.length ∧
      ∀ c ∈ confs,
        engineHasTask (newEngine sshNew httpNew dispatcherResult defaultSchedule confs)
          c.name = true) := by
  constructor
  · intro hbad
    obtain ⟨e, he⟩ := buildTasks_error sshNew httpNew
      (match defaultSchedule with
        | some s => s
        | none => standardDefaultSchedule) confs [] hbad
    rw [newEngine.eq_def]
    dsimp only
    rw [he]
    rfl
  · intro hall hdisp hnd
    obtain ⟨tasks, hbt, hkeys⟩ := buildTasks_ok sshNew httpNew
      (match defaultSchedule with
        | some s => s
        | none => standardDefaultSchedule) confs [] hall hnd
      (fun c hc => by simp)
    subst hdisp
    rw [newEngine.eq_def]
    dsimp only
    rw [hbt]
    refine ⟨rfl, ?_, ?_⟩
    · show tasks.length = confs.length
      have hlen := congrArg List.length hkeys
      simpa using hlen
    · intro c hc
      show (mapLookup tasks c.name).isSome = true
      rw [mapLookup_isSome_iff, hkeys]
      simp only [List.map_nil, List.nil_append]
      exact List.mem_map_of_mem PingerConf.name hc

/-- Witness for `engine_build_atomic`: a two-endpoint configuration builds
an engine with both tasks, and a configuration with an unknown pinger type
fails to build. -/
theorem engine_build_atomic_witness :
    exceptOk (@newEngine Unit (fun _ => Except.ok ()) (fun _ => Except.ok ())
        (Except.ok ()) none
        [{ name := "a", type := "http", schedule := none },
         { name := "b", type := "ssh", schedule := none }]) = true ∧
    enginePingerCount (@newEngine Unit (fun _ => Except.ok ()) (fun _ => Except.ok ())
        (Except.ok ()) none
        [{ name := "a", type := "http", schedule := none },
         { name := "b", type := "ssh", schedule := none }]) = 2 ∧
    engineHasTask (@newEngine Unit (fun _ => Except.ok ()) (fun _ => Except.ok ())
        (Except.ok ()) none
        [{ name := "a", type := "http", schedule := none },
         { name := "b", type := "ssh", schedule := none }]) "a" = true ∧
    exceptOk (@newEngine Unit (fun _ => Except.ok ()) (fun _ => Except.ok ())
        (Except.ok ()) none
        [{ name := "x", type := "smtp", schedule := none }]) = false := by
  have h2 := (@engine_build_atomic Unit (fun _ => Except.ok ()) (fun _ => Except.ok ())
      (Except.ok ()) none
      [{ name := "a", type := "http", schedule := none },
       { name := "b", type := "ssh", schedule := none }]).2
    (by decide) rfl (by decide)
  have h1 := (@engine_build_atomic Unit (fun _ => Except.ok ()) (fun _ => Except.ok ())
      (Except.ok ()) none
      [{ name := "x", type := "smtp", schedule := none }]).1
    ⟨{ name := "x", type := "smtp", schedule := none },
      List.mem_singleton.mpr rfl, by decide⟩
  refine ⟨h2.1, h2.2.1, ?_, h1⟩
  exact h2.2.2 { name := "a", type := "http", schedule := none }
    (List.mem_cons_self _ _)

end Watcher
